import Mathlib

set_option maxRecDepth 100000

/-!
Shallow embedding of the blendizzard contract core
(src/contracts/blendizzard/src/{rewards.rs, game.rs, storage.rs}).

Addresses are modelled as natural numbers, the soroban `i128` type as
mathematical integers together with explicit range checks mirroring the
checked operations of the source, soroban `Map`/storage as association
lists, and each entry point as a pure function from a global `State` to
`Except Error ...`.  Returning an error from a soroban contract function
aborts the invocation and rolls back every storage write, so an `Except`
value of the form `.error e` leaves the caller with the pre-call state:
the embedding returns the successor state only on `.ok`.

Host-level authentication (`require_auth`, `require_auth_for_args`) is
enforced by the soroban host before/independently of the storage logic
modelled here and is not part of the state machine.
-/

namespace Blendizzard

/-- The `i128` minimum. -/
def I128_MIN : Int := -(2 ^ 127)

/-- The `i128` maximum. -/
def I128_MAX : Int := 2 ^ 127 - 1

/-- `i128::checked_add`. -/
def checked_add (a b : Int) : Option Int :=
  if I128_MIN ≤ a + b ∧ a + b ≤ I128_MAX then some (a + b) else none

/-- `i128::checked_mul`. -/
def checked_mul (a b : Int) : Option Int :=
  if I128_MIN ≤ a * b ∧ a * b ≤ I128_MAX then some (a * b) else none

/-- Modelled from the spec: the soroban_fixed_point_math crate's
`fixed_div_floor` for `i128` (the crate is an external dependency, not part
of the given source).  It computes `floor(x * denominator / y)` with checked
multiplication, returning `None` on overflow or a zero divisor; rounding is
toward negative infinity (`Int.fdiv`). -/
def fixed_div_floor (x y denominator : Int) : Option Int :=
  match checked_mul x denominator with
  | none => none
  | some p =>
    if y = 0 then none
    else
      let q := Int.fdiv p y
      if I128_MIN ≤ q ∧ q ≤ I128_MAX then some q else none

/-- Modelled from the spec: the soroban_fixed_point_math crate's
`fixed_mul_floor` for `i128`: `floor(x * y / denominator)` with checked
multiplication, `None` on overflow or a zero denominator. -/
def fixed_mul_floor (x y denominator : Int) : Option Int :=
  match checked_mul x y with
  | none => none
  | some p =>
    if denominator = 0 then none
    else
      let q := Int.fdiv p denominator
      if I128_MIN ≤ q ∧ q ≤ I128_MAX then some q else none

/-- `SCALAR_7` from types.rs: the 10^7 fixed-point scalar named by the spec. -/
def SCALAR_7 : Int := 10000000

/-- The contract error enum (errors.rs is reflected through the variants used
by game.rs/rewards.rs and the spec's error taxonomy in section 7). -/
inductive Error where
  | NotAdmin
  | ContractPaused
  | GameNotWhitelisted
  | SessionAlreadyExists
  | SessionNotFound
  | InvalidSessionState
  | GameExpired
  | InvalidAmount
  | InsufficientFactionPoints
  | FactionNotSelected
  | FactionAlreadyLocked
  | PlayerNotFound
  | OverflowError
  | DivisionByZero
  | EpochNotFinalized
  | NotWinningFaction
  | NoRewardsAvailable
  | RewardAlreadyClaimed
  deriving DecidableEq, Repr

/-- Association-list lookup: the first entry with the given key (soroban maps
and the storage key-value store). -/
def mget {κ α : Type} [DecidableEq κ] : List (κ × α) → κ → Option α
  | [], _ => none
  | (k', v) :: t, k => if k' = k then some v else mget t k

/-- Association-list update: replace the first entry with the given key, or
append a fresh entry. -/
def mset {κ α : Type} [DecidableEq κ] : List (κ × α) → κ → α → List (κ × α)
  | [], k, v => [(k, v)]
  | (k', v') :: t, k, v =>
    if k' = k then (k, v) :: t else (k', v') :: mset t k v

/-- Per-address player record (`Player`/`User` in types.rs). -/
structure Player where
  selected_faction : Nat
  time_multiplier_start : Nat
  last_epoch_balance : Int
  deriving DecidableEq, Repr

/-- Per-(epoch, address) record (`EpochUser`/`EpochPlayer` in types.rs). -/
structure EpochUser where
  epoch_faction : Option Nat
  available_fp : Int
  locked_fp : Int
  total_fp_contributed : Int
  deriving DecidableEq, Repr

/-- A wagered match between two players (types.rs `GameSession`). -/
structure GameSession where
  game_id : Nat
  epoch_id : Nat
  player1 : Nat
  player2 : Nat
  player1_wager : Int
  player2_wager : Int
  player1_won : Option Bool
  deriving DecidableEq, Repr

/-- Per-epoch aggregate record (types.rs `EpochInfo`).  `faction_standings`
is a soroban map from faction id to accumulated winning FP. -/
structure EpochInfo where
  start_time : Nat
  end_time : Nat
  faction_standings : List (Nat × Int)
  reward_pool : Int
  winning_faction : Option Nat
  is_finalized : Bool
  deriving DecidableEq, Repr

/-- The contract's persistent storage (storage.rs) plus the external
token-transfer ledger used by the reward payout.  `transfers` records the
payout-asset transfers out of the contract, newest first. -/
structure State where
  current_epoch : Nat
  users : List (Nat × Player)
  epoch_users : List ((Nat × Nat) × EpochUser)
  epochs : List (Nat × EpochInfo)
  sessions : List (Nat × GameSession)
  games : List (Nat × Bool)
  claimed : List ((Nat × Nat) × Bool)
  vault_balances : List (Nat × Int)
  transfers : List (Nat × Int)
  ledger_timestamp : Nat
  deriving DecidableEq, Repr

/-- storage.rs `has_claimed`: a stored value of `Some(true)` reads as
claimed, anything else as unclaimed. -/
def has_claimed (s : State) (user epoch : Nat) : Bool :=
  match mget s.claimed (user, epoch) with
  | some true => true
  | _ => false

/-- storage.rs `is_game_whitelisted`. -/
def is_game_whitelisted (s : State) (game_id : Nat) : Bool :=
  (mget s.games game_id).getD false

/-- rewards.rs `calculate_reward_share`: share = user_fp / total_fp floored
at 10^-7 precision, reward = share * reward_pool floored at 10^-7
precision.  A `None` from the division step is reported as
`DivisionByZero`, a `None` from the multiplication step as
`OverflowError`, exactly as in the source. -/
def calculate_reward_share (user_fp total_fp reward_pool : Int) :
    Except Error Int :=
  match fixed_div_floor user_fp total_fp SCALAR_7 with
  | none => .error .DivisionByZero
  | some share =>
    match fixed_mul_floor reward_pool share SCALAR_7 with
    | none => .error .OverflowError
    | some reward => .ok reward

/-- rewards.rs `claim_epoch_reward`.  On success the returned state has the
claim recorded and the payout transfer appended; an error aborts the
invocation with no state change (soroban rollback). -/
def claim_epoch_reward (s : State) (user epoch : Nat) :
    Except Error (State × Int) :=
  if has_claimed s user epoch then .error .RewardAlreadyClaimed
  else
    match mget s.epochs epoch with
    | none => .error .EpochNotFinalized
    | some epoch_info =>
      if ¬ epoch_info.is_finalized then .error .EpochNotFinalized
      else
        match epoch_info.winning_faction with
        | none => .error .EpochNotFinalized
        | some winning_faction =>
          match mget s.epoch_users (epoch, user) with
          | none => .error .NoRewardsAvailable
          | some epoch_user =>
            match epoch_user.epoch_faction with
            | none => .error .NoRewardsAvailable
            | some user_faction =>
              if user_faction ≠ winning_faction then .error .NotWinningFaction
              else
                if epoch_user.total_fp_contributed = 0 then
                  .error .NoRewardsAvailable
                else
                  match mget epoch_info.faction_standings winning_faction with
                  | none => .error .NoRewardsAvailable
                  | some total_winning_fp =>
                    if total_winning_fp = 0 then .error .DivisionByZero
                    else
                      match calculate_reward_share
                          epoch_user.total_fp_contributed total_winning_fp
                          epoch_info.reward_pool with
                      | .error e => .error e
                      | .ok reward_amount =>
                        if reward_amount = 0 then .error .NoRewardsAvailable
                        else
                          .ok
                            ({ s with
                                claimed := mset s.claimed (user, epoch) true,
                                transfers := (user, reward_amount) :: s.transfers },
                              reward_amount)

/-- rewards.rs `get_claimable_amount`: the side-effect-free preview, 0 on
every ineligibility. -/
def get_claimable_amount (s : State) (user epoch : Nat) : Int :=
  if has_claimed s user epoch then 0
  else
    match mget s.epochs epoch with
    | none => 0
    | some epoch_info =>
      if ¬ epoch_info.is_finalized then 0
      else
        match epoch_info.winning_faction with
        | none => 0
        | some winning_faction =>
          match mget s.epoch_users (epoch, user) with
          | none => 0
          | some epoch_user =>
            match epoch_user.epoch_faction with
            | none => 0
            | some user_faction =>
              if user_faction ≠ winning_faction then 0
              else
                if epoch_user.total_fp_contributed = 0 then 0
                else
                  match mget epoch_info.faction_standings winning_faction with
                  | none => 0
                  | some total_winning_fp =>
                    if total_winning_fp = 0 then 0
                    else
                      match calculate_reward_share
                          epoch_user.total_fp_contributed total_winning_fp
                          epoch_info.reward_pool with
                      | .error _ => 0
                      | .ok amount => amount

/-- Modelled from the spec: the balance oracle's `get_vault_balance`
(vault.rs is not part of the given source); reads the player's current
collateral balance, absent players holding 0. -/
def get_vault_balance (s : State) (player : Nat) : Int :=
  (mget s.vault_balances player).getD 0

/-- Modelled from the spec: the balance oracle's
`check_cross_epoch_withdrawal_reset` (vault.rs is not part of the given
source): detects a >50% balance reduction since the last epoch snapshot and
in that case resets the player's time-based multiplier start; opaque to
this core and modelled as never failing. -/
def check_cross_epoch_withdrawal_reset (s : State) (player : Nat)
    (current_balance : Int) (_epoch : Nat) : State × Bool :=
  match mget s.users player with
  | none => (s, false)
  | some pd =>
    if 2 * current_balance < pd.last_epoch_balance then
      ({ s with
          users := mset s.users player
            { pd with time_multiplier_start := s.ledger_timestamp } },
        true)
    else (s, false)

/-- Modelled from the spec: the FP ledger's `initialize_epoch_fp`
(faction_points.rs is not part of the given source): on a player's first
game of the epoch it computes their FP budget from current collateral
(the budget formula itself is a black box; it is taken here to be the
vault balance) and creates the epoch record with no faction locked, no FP
locked and no contribution; idempotent if the record already exists. -/
def initialize_epoch_fp (s : State) (player : Nat) (epoch : Nat) :
    Except Error State :=
  match mget s.epoch_users (epoch, player) with
  | some _ => .ok s
  | none =>
    .ok { s with
        epoch_users := mset s.epoch_users (epoch, player)
          { epoch_faction := none,
            available_fp := get_vault_balance s player,
            locked_fp := 0,
            total_fp_contributed := 0 } }

/-- Modelled from the spec: the FP ledger's `lock_epoch_faction`
(faction.rs is not part of the given source): copies the player's on-file
faction selection into the epoch record; a second lock in the same epoch is
a no-op, so the faction is immutable once locked. -/
def lock_epoch_faction (s : State) (player : Nat) (epoch : Nat) :
    Except Error State :=
  match mget s.epoch_users (epoch, player) with
  | none => .error .PlayerNotFound
  | some eu =>
    match eu.epoch_faction with
    | some _ => .ok s
    | none =>
      match mget s.users player with
      | none => .error .FactionNotSelected
      | some pd =>
        .ok { s with
            epoch_users := mset s.epoch_users (epoch, player)
              { eu with epoch_faction := some pd.selected_faction } }

/-- Modelled from the spec: the FP ledger's `lock_fp` (faction_points.rs is
not part of the given source): atomically moves the wager from
`available_fp` to `locked_fp`, failing if insufficient available FP
exists; the locked-side addition is checked arithmetic. -/
def lock_fp (s : State) (player : Nat) (amount : Int) (epoch : Nat) :
    Except Error State :=
  match mget s.epoch_users (epoch, player) with
  | none => .error .PlayerNotFound
  | some eu =>
    if eu.available_fp < amount then .error .InsufficientFactionPoints
    else
      match checked_add eu.locked_fp amount with
      | none => .error .OverflowError
      | some locked =>
        .ok { s with
            epoch_users := mset s.epoch_users (epoch, player)
              { eu with
                  available_fp := eu.available_fp - amount,
                  locked_fp := locked } }

/-- game.rs `initialize_player_epoch`: lazy first-game-of-epoch setup — a
no-op when the epoch record exists, otherwise snapshots the vault balance,
starts the time multiplier, runs the withdrawal-reset check, initializes
the epoch FP budget and updates `last_epoch_balance`. -/
def initialize_player_epoch (s : State) (player : Nat) (current_epoch : Nat) :
    Except Error State :=
  match mget s.epoch_users (current_epoch, player) with
  | some _ => .ok s
  | none =>
    let current_balance := get_vault_balance s player
    let pd := (mget s.users player).getD
      { selected_faction := 0, time_multiplier_start := 0,
        last_epoch_balance := 0 }
    let s1 :=
      if pd.time_multiplier_start = 0 ∧ 0 < current_balance then
        { s with
            users := mset s.users player
              { pd with time_multiplier_start := s.ledger_timestamp } }
      else s
    let s2 := (check_cross_epoch_withdrawal_reset s1 player current_balance
      current_epoch).1
    match initialize_epoch_fp s2 player current_epoch with
    | .error e => .error e
    | .ok s3 =>
      match mget s3.users player with
      | none => .error .PlayerNotFound
      | some pd2 =>
        .ok { s3 with
            users := mset s3.users player
              { pd2 with last_epoch_balance := current_balance } }

/-- game.rs `update_faction_standings`: adds the winner's wager to the
winning faction's aggregate standing with checked arithmetic; a missing
standings entry defaults to 0. -/
def update_faction_standings (s : State) (winner : Nat) (fp_amount : Int)
    (current_epoch : Nat) : Except Error State :=
  match mget s.epoch_users (current_epoch, winner) with
  | none => .error .PlayerNotFound
  | some epoch_player =>
    match epoch_player.epoch_faction with
    | none => .error .FactionAlreadyLocked
    | some faction =>
      match mget s.epochs current_epoch with
      | none => .error .EpochNotFinalized
      | some epoch_info =>
        let current_standing :=
          (mget epoch_info.faction_standings faction).getD 0
        match checked_add current_standing fp_amount with
        | none => .error .OverflowError
        | some new_standing =>
          .ok { s with
              epochs := mset s.epochs current_epoch
                { epoch_info with
                    faction_standings :=
                      mset epoch_info.faction_standings faction new_standing } }

/-- game.rs `end_game`: settles a pending session of the current epoch —
the winner's wager is added (checked) to the winner's contribution and to
the winning faction's standing, the session becomes terminal, and the
loser's wager is discarded.  An error aborts the invocation with no state
change (soroban rollback). -/
def end_game (s : State) (session_id : Nat) (player1_won : Bool) :
    Except Error State :=
  match mget s.sessions session_id with
  | none => .error .SessionNotFound
  | some session =>
    if session.player1_won.isSome then .error .InvalidSessionState
    else
      let current_epoch := s.current_epoch
      if session.epoch_id ≠ current_epoch then .error .GameExpired
      else
        let winner :=
          if player1_won then session.player1 else session.player2
        let winner_wager :=
          if player1_won then session.player1_wager else session.player2_wager
        match mget s.epoch_users (current_epoch, winner) with
        | none => .error .PlayerNotFound
        | some winner_epoch =>
          match checked_add winner_epoch.total_fp_contributed winner_wager with
          | none => .error .OverflowError
          | some new_contrib =>
            let s1 := { s with
                epoch_users := mset s.epoch_users (current_epoch, winner)
                  { winner_epoch with total_fp_contributed := new_contrib } }
            let s2 := { s1 with
                sessions := mset s1.sessions session_id
                  { session with player1_won := some player1_won } }
            update_faction_standings s2 winner winner_wager current_epoch

/-- The post-call state of an `end_game` invocation: the new state on
success, the unchanged pre-call state on error (soroban rollback). -/
def exec_end_game (s : State) (session_id : Nat) (player1_won : Bool) :
    State :=
  match end_game s session_id player1_won with
  | .ok s' => s'
  | .error _ => s

/-- game.rs `start_game`: whitelist, session-uniqueness and positive-wager
checks; both players must have an on-file faction selection; lazy epoch
initialization, faction lock and wager lock for each player; then the
pending session is persisted (the started event's epoch reads are kept,
including their `PlayerNotFound` fallbacks). -/
def start_game (s : State) (game_id session_id p1 p2 : Nat)
    (player1_wager player2_wager : Int) : Except Error State :=
  if ¬ is_game_whitelisted s game_id then .error .GameNotWhitelisted
  else
    if (mget s.sessions session_id).isSome then .error .SessionAlreadyExists
    else
      if player1_wager ≤ 0 ∨ player2_wager ≤ 0 then .error .InvalidAmount
      else
        if (mget s.users p1).isNone then .error .FactionNotSelected
        else
          if (mget s.users p2).isNone then .error .FactionNotSelected
          else
            let current_epoch := s.current_epoch
            match initialize_player_epoch s p1 current_epoch with
            | .error e => .error e
            | .ok sa =>
              match initialize_player_epoch sa p2 current_epoch with
              | .error e => .error e
              | .ok sb =>
                match lock_epoch_faction sb p1 current_epoch with
                | .error e => .error e
                | .ok sc =>
                  match lock_epoch_faction sc p2 current_epoch with
                  | .error e => .error e
                  | .ok sd =>
                    match lock_fp sd p1 player1_wager current_epoch with
                    | .error e => .error e
                    | .ok se =>
                      match lock_fp se p2 player2_wager current_epoch with
                      | .error e => .error e
                      | .ok sf =>
                        let sg := { sf with
                            sessions := mset sf.sessions session_id
                              { game_id := game_id,
                                epoch_id := current_epoch,
                                player1 := p1, player2 := p2,
                                player1_wager := player1_wager,
                                player2_wager := player2_wager,
                                player1_won := none } }
                        if (mget sg.epoch_users (current_epoch, p1)).isNone then
                          .error .PlayerNotFound
                        else
                          if (mget sg.epoch_users (current_epoch, p2)).isNone then
                            .error .PlayerNotFound
                          else .ok sg

/-! ### Association-list lemmas -/

theorem mget_mset_self {κ α : Type} [DecidableEq κ] (l : List (κ × α))
    (k : κ) (v : α) : mget (mset l k v) k = some v := by
  induction l with
  | nil => simp [mget, mset]
  | cons p t ih =>
    obtain ⟨k', v'⟩ := p
    by_cases hk : k' = k <;> simp [mget, mset, hk, ih]

theorem mget_mset_ne {κ α : Type} [DecidableEq κ] (l : List (κ × α))
    {k k' : κ} (v : α) (h : k' ≠ k) :
    mget (mset l k v) k' = mget l k' := by
  have hkk : k ≠ k' := fun hh => h hh.symm
  induction l with
  | nil => simp [mget, mset, hkk]
  | cons p t ih =>
    obtain ⟨k0, v0⟩ := p
    by_cases hk : k0 = k
    · subst hk
      simp [mget, mset, hkk]
    · by_cases hk' : k0 = k' <;> simp [mget, mset, hk, hk', ih, h]

theorem mget_mem {κ α : Type} [DecidableEq κ] {l : List (κ × α)} {k : κ}
    {v : α} (h : mget l k = some v) : (k, v) ∈ l := by
  induction l with
  | nil => simp [mget] at h
  | cons p t ih =>
    obtain ⟨k0, v0⟩ := p
    by_cases hk : k0 = k
    · subst hk
      simp [mget] at h
      simp [h]
    · simp [mget, hk] at h
      exact List.mem_cons_of_mem _ (ih h)

/-- Sum of a valuation over the entries of an association list. -/
def msum {κ α : Type} (g : κ × α → Int) (l : List (κ × α)) : Int :=
  (l.map g).sum

theorem msum_nil {κ α : Type} (g : κ × α → Int) : msum g ([] : List (κ × α)) = 0 :=
  rfl

theorem msum_cons {κ α : Type} (g : κ × α → Int) (p : κ × α)
    (l : List (κ × α)) : msum g (p :: l) = g p + msum g l := by
  simp [msum]

theorem msum_mset_some {κ α : Type} [DecidableEq κ] {l : List (κ × α)}
    {k : κ} {v0 : α} (g : κ × α → Int) (v : α) (h : mget l k = some v0) :
    msum g (mset l k v) = msum g l - g (k, v0) + g (k, v) := by
  induction l with
  | nil => simp [mget] at h
  | cons p t ih =>
    obtain ⟨k0, w0⟩ := p
    by_cases hk : k0 = k
    · subst hk
      simp [mget] at h
      subst h
      simp [mset, msum_cons]
      ring
    · simp [mget, hk] at h
      simp [mset, hk, msum_cons, ih h]
      ring

theorem msum_mset_none {κ α : Type} [DecidableEq κ] {l : List (κ × α)}
    {k : κ} (g : κ × α → Int) (v : α) (h : mget l k = none) :
    msum g (mset l k v) = msum g l + g (k, v) := by
  induction l with
  | nil => simp [mset, msum_cons, msum_nil]
  | cons p t ih =>
    obtain ⟨k0, w0⟩ := p
    by_cases hk : k0 = k
    · subst hk
      simp [mget] at h
    · simp [mget, hk] at h
      simp [mset, hk, msum_cons, ih h]
      ring

theorem msum_le_pointwise {κ α : Type} {l : List (κ × α)}
    {g g' : κ × α → Int} (h : ∀ p ∈ l, g' p ≤ g p) :
    msum g' l ≤ msum g l := by
  induction l with
  | nil => simp [msum_nil]
  | cons p t ih =>
    simp only [msum_cons]
    have h1 := h p (List.mem_cons_self p t)
    have h2 := ih fun q hq => h q (List.mem_cons_of_mem _ hq)
    omega

theorem msum_gap {κ α : Type} {l : List (κ × α)} {g g' : κ × α → Int}
    {p0 : κ × α} (hmem : p0 ∈ l) (h : ∀ p ∈ l, g' p ≤ g p) :
    msum g' l + (g p0 - g' p0) ≤ msum g l := by
  induction l with
  | nil => simp at hmem
  | cons p t ih =>
    simp only [msum_cons]
    rcases List.mem_cons.mp hmem with h0 | h0
    · subst h0
      have h2 : msum g' t ≤ msum g t :=
        msum_le_pointwise fun q hq => h q (List.mem_cons_of_mem _ hq)
      omega
    · have h1 := h p (List.mem_cons_self p t)
      have h2 := ih h0 fun q hq => h q (List.mem_cons_of_mem _ hq)
      omega

theorem msum_nonneg {κ α : Type} {l : List (κ × α)} {g : κ × α → Int}
    (h : ∀ p ∈ l, 0 ≤ g p) : 0 ≤ msum g l := by
  induction l with
  | nil => simp [msum_nil]
  | cons p t ih =>
    simp only [msum_cons]
    have h1 := h p (List.mem_cons_self p t)
    have h2 := ih fun q hq => h q (List.mem_cons_of_mem _ hq)
    omega

/-! ### Inversion lemmas for the reward path -/

theorem fixed_div_floor_some {x y d q : Int} (h : fixed_div_floor x y d = some q) :
    y ≠ 0 ∧ q = Int.fdiv (x * d) y := by
  unfold fixed_div_floor checked_mul at h
  repeat' split at h
  all_goals simp_all

theorem fixed_mul_floor_some {x y d q : Int} (h : fixed_mul_floor x y d = some q) :
    d ≠ 0 ∧ q = Int.fdiv (x * y) d := by
  unfold fixed_mul_floor checked_mul at h
  repeat' split at h
  all_goals simp_all

theorem calculate_reward_share_ok_inv {a T p r : Int}
    (h : calculate_reward_share a T p = .ok r) :
    T ≠ 0 ∧ r = Int.fdiv (p * Int.fdiv (a * SCALAR_7) T) SCALAR_7 := by
  unfold calculate_reward_share at h
  split at h
  · simp at h
  rename_i share hdiv
  split at h
  · simp at h
  rename_i r0 hmul
  simp only [Except.ok.injEq] at h
  subst h
  obtain ⟨hT, hq⟩ := fixed_div_floor_some hdiv
  obtain ⟨hS, hr⟩ := fixed_mul_floor_some hmul
  subst hq
  subst hr
  exact ⟨hT, rfl⟩

theorem claim_epoch_reward_ok_inv {s : State} {u e : Nat} {s' : State} {r : Int}
    (h : claim_epoch_reward s u e = .ok (s', r)) :
    has_claimed s u e = false ∧
    ∃ ei eu wf T,
      mget s.epochs e = some ei ∧ ei.is_finalized = true ∧
      ei.winning_faction = some wf ∧
      mget s.epoch_users (e, u) = some eu ∧
      eu.epoch_faction = some wf ∧
      eu.total_fp_contributed ≠ 0 ∧
      mget ei.faction_standings wf = some T ∧ T ≠ 0 ∧
      calculate_reward_share eu.total_fp_contributed T ei.reward_pool = .ok r ∧
      r ≠ 0 ∧
      s' = { s with claimed := mset s.claimed (u, e) true,
                    transfers := (u, r) :: s.transfers } := by
  unfold claim_epoch_reward at h
  split at h
  · simp at h
  rename_i hcl
  split at h
  · simp at h
  rename_i ei hei
  split at h
  · simp at h
  rename_i hfin
  split at h
  · simp at h
  rename_i wf hwf
  split at h
  · simp at h
  rename_i eu heu
  split at h
  · simp at h
  rename_i uf huf
  split at h
  · simp at h
  rename_i hufwf
  split at h
  · simp at h
  rename_i hcontrib
  split at h
  · simp at h
  rename_i T hT
  split at h
  · simp at h
  rename_i hT0
  split at h
  · simp at h
  rename_i r0 hcalc
  split at h
  · simp at h
  rename_i hr0
  simp only [Except.ok.injEq, Prod.mk.injEq] at h
  obtain ⟨hs', hr⟩ := h
  subst hs'
  subst hr
  have hcl' : has_claimed s u e = false := by
    simpa using hcl
  have hfin' : ei.is_finalized = true := by
    by_contra hc
    exact hfin (by simpa using hc)
  have hufwf' : uf = wf := by
    by_contra hc
    exact hufwf hc
  subst hufwf'
  exact ⟨hcl', ei, eu, uf, T, hei, hfin', hwf, heu, huf, hcontrib, hT, hT0,
    hcalc, hr0, rfl⟩

/-! ### C3 -/

/-- C3: for every user and epoch, `get_claimable_amount` is total (never an
error by its type), returns 0 exactly when `claim_epoch_reward` fails on
any of its preconditions, and otherwise returns exactly the amount the
mutating claim pays for the same state: it equals the claim's payout with
errors mapped to 0. -/
theorem get_claimable_agrees_with_claim (s : State) (u e : Nat) :
    get_claimable_amount s u e =
      (match claim_epoch_reward s u e with
       | .ok p => p.2
       | .error _ => 0) := by
  unfold get_claimable_amount claim_epoch_reward
  repeat' split
  all_goals try simp_all
  all_goals (rename_i heq; split at heq <;> (try simp_all) <;> (try rw [← heq]))

/-! ### C1 -/

/-- C1: every successful (eligible) claim pays exactly the two-step
fixed-point amount — the user's contribution floor-divided by the winning
faction's total at 10^-7 precision, then floor-multiplied with the reward
pool at 10^-7 precision. -/
theorem claim_reward_matches_fixed_point_formula {s : State} {u e : Nat}
    {p : State × Int} (h : claim_epoch_reward s u e = .ok p) :
    ∃ ei eu wf T,
      mget s.epochs e = some ei ∧ ei.winning_faction = some wf ∧
      mget s.epoch_users (e, u) = some eu ∧
      mget ei.faction_standings wf = some T ∧
      p.2 = Int.fdiv (ei.reward_pool *
        Int.fdiv (eu.total_fp_contributed * SCALAR_7) T) SCALAR_7 := by
  obtain ⟨-, ei, eu, wf, T, hei, -, hwf, heu, -, -, hT, -, hcalc, -, -⟩ :=
    claim_epoch_reward_ok_inv h
  exact ⟨ei, eu, wf, T, hei, hwf, heu, hT,
    (calculate_reward_share_ok_inv hcalc).2⟩

/-- The spec's reward scenario: reward pool 1000_0000000, winning-faction
total FP 500_0000000. -/
def c1_epoch : EpochInfo :=
  { start_time := 0, end_time := 0, faction_standings := [(1, 5000000000)],
    reward_pool := 10000000000, winning_faction := some 1,
    is_finalized := true }

/-- The scenario claimant contributed 250_0000000 FP to the winning
faction. -/
def c1_state : State :=
  { current_epoch := 2, users := [],
    epoch_users := [((1, 7),
      { epoch_faction := some 1, available_fp := 0, locked_fp := 0,
        total_fp_contributed := 2500000000 })],
    epochs := [(1, c1_epoch)], sessions := [], games := [], claimed := [],
    vault_balances := [], transfers := [], ledger_timestamp := 0 }

/-- The scenario state after the claim: claim recorded, 500_0000000 paid. -/
def c1_state_after : State :=
  { c1_state with claimed := [((7, 1), true)],
                  transfers := [(7, 5000000000)] }

/-- Witness for C1, checking the spec's concrete scenario: the claim pays
exactly 500_0000000 (50% of the pool), and the formula theorem applies. -/
theorem claim_reward_formula_witness :
    claim_epoch_reward c1_state 7 1 = .ok (c1_state_after, 5000000000) ∧
    (∃ ei eu wf T,
      mget c1_state.epochs 1 = some ei ∧ ei.winning_faction = some wf ∧
      mget c1_state.epoch_users (1, 7) = some eu ∧
      mget ei.faction_standings wf = some T ∧
      (5000000000 : Int) = Int.fdiv (ei.reward_pool *
        Int.fdiv (eu.total_fp_contributed * SCALAR_7) T) SCALAR_7) :=
  ⟨by rfl,
    @claim_reward_matches_fixed_point_formula c1_state 7 1
      (c1_state_after, 5000000000) (by rfl)⟩

/-! ### C4 -/

/-- C4: no double claim.  Under nonnegative stored amounts, a first
successful claim pays a strictly positive reward, records the claim in the
very state that carries the payout transfer (atomically — there is no
intermediate state with the payout but no record), and a second claim by
the same user for the same epoch fails with RewardAlreadyClaimed, so the
tokens moved out are exactly the first claim's amount. -/
theorem no_double_claim {s : State} {u e : Nat} {s' : State} {r : Int}
    (h : claim_epoch_reward s u e = .ok (s', r))
    (hpool : ∀ q ∈ s.epochs, 0 ≤ q.2.reward_pool)
    (hcontrib : ∀ q ∈ s.epoch_users, 0 ≤ q.2.total_fp_contributed)
    (hstand : ∀ q ∈ s.epochs, ∀ t ∈ q.2.faction_standings, 0 ≤ t.2) :
    0 < r ∧ has_claimed s' u e = true ∧
    claim_epoch_reward s' u e = .error .RewardAlreadyClaimed ∧
    s'.transfers = (u, r) :: s.transfers := by
  obtain ⟨hcl, ei, eu, wf, T, hei, hfin, hwf, heu, huf, hc0, hT, hT0, hcalc,
    hr0, hs'⟩ := claim_epoch_reward_ok_inv h
  obtain ⟨-, hr⟩ := calculate_reward_share_ok_inv hcalc
  have hTpos : 0 < T :=
    lt_of_le_of_ne (hstand _ (mget_mem hei) _ (mget_mem hT)) (Ne.symm hT0)
  have hcpos : 0 ≤ eu.total_fp_contributed := hcontrib _ (mget_mem heu)
  have hppos : 0 ≤ ei.reward_pool := hpool _ (mget_mem hei)
  have hS : (0 : Int) < SCALAR_7 := by norm_num [SCALAR_7]
  have hrpos : 0 ≤ r := by
    subst hr
    rw [Int.fdiv_eq_ediv _ (le_of_lt hS)]
    refine Int.ediv_nonneg (mul_nonneg hppos ?_) (le_of_lt hS)
    rw [Int.fdiv_eq_ediv _ (le_of_lt hTpos)]
    exact Int.ediv_nonneg (mul_nonneg hcpos (le_of_lt hS)) (le_of_lt hTpos)
  have hclaimed : has_claimed s' u e = true := by
    subst hs'
    unfold has_claimed
    simp [mget_mset_self]
  refine ⟨lt_of_le_of_ne hrpos (Ne.symm hr0), hclaimed, ?_, by rw [hs']⟩
  unfold claim_epoch_reward
  rw [hclaimed]
  rfl

/-- A two-claimant finalized epoch used to witness the no-double-claim
theorem. -/
def c4_state : State :=
  { current_epoch := 2, users := [],
    epoch_users := [((1, 9),
      { epoch_faction := some 0, available_fp := 0, locked_fp := 0,
        total_fp_contributed := 400 })],
    epochs := [(1,
      { start_time := 0, end_time := 0, faction_standings := [(0, 1000)],
        reward_pool := 5000, winning_faction := some 0,
        is_finalized := true })],
    sessions := [], games := [], claimed := [], vault_balances := [],
    transfers := [], ledger_timestamp := 0 }

/-- The state after the witness claim: claim recorded and 2000 paid out. -/
def c4_state_after : State :=
  { c4_state with claimed := [((9, 1), true)], transfers := [(9, 2000)] }

/-- Witness for C4 at a concrete eligible claim: reward 2000 = 5000 * 400 /
1000, second claim rejected. -/
theorem no_double_claim_witness :
    0 < (2000 : Int) ∧ has_claimed c4_state_after 9 1 = true ∧
    claim_epoch_reward c4_state_after 9 1 = .error .RewardAlreadyClaimed ∧
    c4_state_after.transfers = (9, 2000) :: c4_state.transfers :=
  no_double_claim (by rfl) (by decide) (by decide) (by decide)

/-! ### C7 (corrected) -/

/-- A state passing every claim precondition up to the standings lookup,
whose standings map has no entry for the winning faction. -/
def c7_state : State :=
  { current_epoch := 2, users := [],
    epoch_users := [((1, 7),
      { epoch_faction := some 0, available_fp := 0, locked_fp := 0,
        total_fp_contributed := 100 })],
    epochs := [(1,
      { start_time := 0, end_time := 0, faction_standings := [],
        reward_pool := 1000, winning_faction := some 0,
        is_finalized := true })],
    sessions := [], games := [], claimed := [], vault_balances := [],
    transfers := [], ledger_timestamp := 0 }

/-- C7 counterexample: with every earlier precondition passing and the
winning faction's standings entry absent (which the spec says reads as 0),
the claim fails with NoRewardsAvailable — not DivisionByZero as the claim
states.  The conjuncts exhibit that the earlier preconditions do pass and
that the entry is indeed absent. -/
theorem absent_standing_not_division_by_zero :
    has_claimed c7_state 7 1 = false ∧
    (∃ ei, mget c7_state.epochs 1 = some ei ∧ ei.is_finalized = true ∧
      ei.winning_faction = some 0 ∧ mget ei.faction_standings 0 = none) ∧
    (∃ eu, mget c7_state.epoch_users (1, 7) = some eu ∧
      eu.epoch_faction = some 0 ∧ eu.total_fp_contributed ≠ 0) ∧
    claim_epoch_reward c7_state 7 1 = .error .NoRewardsAvailable ∧
    claim_epoch_reward c7_state 7 1 ≠ .error .DivisionByZero := by
  refine ⟨by rfl, ⟨_, by rfl, by rfl, by rfl, by rfl⟩,
    ⟨_, by rfl, by rfl, by decide⟩, by rfl, ?_⟩
  have h1 : claim_epoch_reward c7_state 7 1 = .error .NoRewardsAvailable := by
    rfl
  rw [h1]
  intro hc
  have : Error.NoRewardsAvailable = Error.DivisionByZero :=
    Except.error.inj hc
  cases this

/-- C7 amended: when all earlier claim preconditions pass, a standings
entry for the winning faction that is present with value zero makes the
claim fail with DivisionByZero; an absent entry instead makes it fail with
NoRewardsAvailable (the absent-reads-as-0 default applies only to the
settlement-side standings update, not to this lookup). -/
theorem zero_standing_division_by_zero {s : State} {u e wf : Nat}
    {ei : EpochInfo} {eu : EpochUser}
    (hcl : has_claimed s u e = false)
    (hei : mget s.epochs e = some ei)
    (hfin : ei.is_finalized = true)
    (hwf : ei.winning_faction = some wf)
    (heu : mget s.epoch_users (e, u) = some eu)
    (huf : eu.epoch_faction = some wf)
    (hc : eu.total_fp_contributed ≠ 0) :
    (mget ei.faction_standings wf = some 0 →
      claim_epoch_reward s u e = .error .DivisionByZero) ∧
    (mget ei.faction_standings wf = none →
      claim_epoch_reward s u e = .error .NoRewardsAvailable) := by
  constructor <;> intro hst <;>
    simp [claim_epoch_reward, hcl, hei, hfin, hwf, heu, huf, hc, hst]

/-- The c7 state with the winning faction's standing present and zero. -/
def c7_zero_state : State :=
  { c7_state with
      epochs := [(1,
        { start_time := 0, end_time := 0, faction_standings := [(0, 0)],
          reward_pool := 1000, winning_faction := some 0,
          is_finalized := true })] }

/-- Witness for the amended C7: a present zero standing yields
DivisionByZero. -/
theorem zero_standing_division_by_zero_witness :
    claim_epoch_reward c7_zero_state 7 1 = .error .DivisionByZero :=
  (zero_standing_division_by_zero (by rfl) (by rfl) (by rfl) (by rfl)
    (by rfl) (by rfl) (by decide)).1 (by rfl)

/-! ### Settlement-side inversion lemmas -/

def session_winner (player1_won : Bool) (sess : GameSession) : Nat :=
  if player1_won then sess.player1 else sess.player2

def session_winner_wager (player1_won : Bool) (sess : GameSession) : Int :=
  if player1_won then sess.player1_wager else sess.player2_wager

def credit_contribution (we : EpochUser) (w : Int) : EpochUser :=
  { we with total_fp_contributed := we.total_fp_contributed + w }

def mark_ended (sess : GameSession) (player1_won : Bool) : GameSession :=
  { sess with player1_won := some player1_won }

def bump_standings (ei : EpochInfo) (f : Nat) (fp : Int) : EpochInfo :=
  { ei with
      faction_standings :=
        mset ei.faction_standings f
          ((mget ei.faction_standings f).getD 0 + fp) }

theorem checked_add_some {a b c : Int} (h : checked_add a b = some c) :
    c = a + b ∧ I128_MIN ≤ a + b ∧ a + b ≤ I128_MAX := by
  unfold checked_add at h
  split at h <;> simp_all

theorem update_faction_standings_ok_inv {s : State} {w : Nat} {fp : Int}
    {ce : Nat} {s' : State} (h : update_faction_standings s w fp ce = .ok s') :
    ∃ ep f ei,
      mget s.epoch_users (ce, w) = some ep ∧ ep.epoch_faction = some f ∧
      mget s.epochs ce = some ei ∧
      I128_MIN ≤ (mget ei.faction_standings f).getD 0 + fp ∧
      (mget ei.faction_standings f).getD 0 + fp ≤ I128_MAX ∧
      s' = { s with epochs := mset s.epochs ce (bump_standings ei f fp) } := by
  simp only [update_faction_standings] at h
  split at h
  · simp at h
  rename_i ep hep
  split at h
  · simp at h
  rename_i f hf
  split at h
  · simp at h
  rename_i ei hei
  split at h
  · simp at h
  rename_i ns hadd
  obtain ⟨hns, hlo, hhi⟩ := checked_add_some hadd
  subst hns
  simp only [Except.ok.injEq] at h
  exact ⟨ep, f, ei, hep, hf, hei, hlo, hhi, h.symm⟩

theorem end_game_ok_inv {s : State} {sid : Nat} {b : Bool} {s' : State}
    (h : end_game s sid b = .ok s') :
    ∃ sess we f ei,
      mget s.sessions sid = some sess ∧ sess.player1_won = none ∧
      sess.epoch_id = s.current_epoch ∧
      mget s.epoch_users (s.current_epoch, session_winner b sess) = some we ∧
      we.epoch_faction = some f ∧
      mget s.epochs s.current_epoch = some ei ∧
      s' = { s with
              epoch_users := mset s.epoch_users
                (s.current_epoch, session_winner b sess)
                (credit_contribution we (session_winner_wager b sess)),
              sessions := mset s.sessions sid (mark_ended sess b),
              epochs := mset s.epochs s.current_epoch
                (bump_standings ei f (session_winner_wager b sess)) } := by
  simp only [end_game] at h
  split at h
  · simp at h
  rename_i sess hsess
  split at h
  · simp at h
  rename_i hpend
  split at h
  · simp at h
  rename_i hep
  split at h
  · simp at h
  rename_i we hwe
  split at h
  · simp at h
  rename_i c hadd
  obtain ⟨hc, -, -⟩ := checked_add_some hadd
  subst hc
  obtain ⟨ep, f, ei, hep2, hf, hei2, hlo, hhi, hs'⟩ :=
    update_faction_standings_ok_inv h
  rw [mget_mset_self] at hep2
  have hepv : ep = credit_contribution we (session_winner_wager b sess) :=
    (Option.some.inj hep2).symm
  subst hepv
  refine ⟨sess, we, f, ei, hsess, Option.not_isSome_iff_eq_none.mp hpend,
    not_not.mp hep, hwe, hf, hei2, ?_⟩
  rw [hs']
  rfl

/-! ### C5 -/

/-- C5: no double settlement — after a successful `end_game` the session is
terminal, so a second `end_game` on the same session (with either claimed
outcome) fails with InvalidSessionState, and the failed invocation leaves
the whole state — faction standings included — unchanged. -/
theorem no_double_settlement {s : State} {sid : Nat} {b b' : Bool} {s' : State}
    (h : end_game s sid b = .ok s') :
    end_game s' sid b' = .error .InvalidSessionState ∧
    exec_end_game s' sid b' = s' := by
  obtain ⟨sess, we, f, ei, hsess, hpend, hep, hwe, hf, hei, hs'⟩ :=
    end_game_ok_inv h
  have hsess' : mget s'.sessions sid = some (mark_ended sess b) := by
    rw [hs']
    exact mget_mset_self _ _ _
  have herr : end_game s' sid b' = .error .InvalidSessionState := by
    simp [end_game, hsess', mark_ended]
  exact ⟨herr, by simp [exec_end_game, herr]⟩

/-- A pending 4-vs-6 session in the active epoch, used to witness the
settlement theorems. -/
def c5_state : State :=
  { current_epoch := 1, users := [],
    epoch_users := [((1, 10),
      { epoch_faction := some 2, available_fp := 5, locked_fp := 4,
        total_fp_contributed := 0 })],
    epochs := [(1,
      { start_time := 0, end_time := 0, faction_standings := [],
        reward_pool := 0, winning_faction := none, is_finalized := false })],
    sessions := [(3,
      { game_id := 99, epoch_id := 1, player1 := 10, player2 := 11,
        player1_wager := 4, player2_wager := 6, player1_won := none })],
    games := [], claimed := [], vault_balances := [], transfers := [],
    ledger_timestamp := 0 }

/-- The witness state after settling the c5 session in player1's favor. -/
def c5_state_after : State :=
  { c5_state with
      epoch_users := [((1, 10),
        { epoch_faction := some 2, available_fp := 5, locked_fp := 4,
          total_fp_contributed := 4 })],
      epochs := [(1,
        { start_time := 0, end_time := 0, faction_standings := [(2, 4)],
          reward_pool := 0, winning_faction := none, is_finalized := false })],
      sessions := [(3,
        { game_id := 99, epoch_id := 1, player1 := 10, player2 := 11,
          player1_wager := 4, player2_wager := 6,
          player1_won := some true })] }

/-- Witness for C5 at the concrete settled session. -/
theorem no_double_settlement_witness :
    end_game c5_state_after 3 true = .error .InvalidSessionState ∧
    exec_end_game c5_state_after 3 true = c5_state_after :=
  @no_double_settlement c5_state 3 true true c5_state_after (by rfl)

/-! ### C9 -/

/-- C9: frame effect of a successful `end_game` on the per-epoch player
records — only the winner's record changes, and of it only
`total_fp_contributed` (raised by the winner's wager); `epoch_faction`,
`available_fp` and `locked_fp` are preserved verbatim, and every other
(epoch, address) record — the loser's included — is untouched, so no
participant's locked FP is zeroed or unlocked at settlement. -/
theorem end_game_epoch_user_frame {s : State} {sid : Nat} {b : Bool}
    {s' : State} (h : end_game s sid b = .ok s') :
    ∃ sess we,
      mget s.sessions sid = some sess ∧
      mget s.epoch_users (s.current_epoch, session_winner b sess) = some we ∧
      mget s'.epoch_users (s.current_epoch, session_winner b sess) =
        some { epoch_faction := we.epoch_faction,
               available_fp := we.available_fp,
               locked_fp := we.locked_fp,
               total_fp_contributed :=
                 we.total_fp_contributed + session_winner_wager b sess } ∧
      ∀ k, k ≠ (s.current_epoch, session_winner b sess) →
        mget s'.epoch_users k = mget s.epoch_users k := by
  obtain ⟨sess, we, f, ei, hsess, hpend, hep, hwe, hf, hei, hs'⟩ :=
    end_game_ok_inv h
  refine ⟨sess, we, hsess, hwe, ?_, ?_⟩
  · rw [hs']
    simp only [mget_mset_self, credit_contribution]
  · intro k hk
    rw [hs']
    exact mget_mset_ne _ _ hk

/-- Witness for C9 at the concrete settled session: the winner's record is
updated in place, the loser's (absent) record stays absent. -/
theorem end_game_epoch_user_frame_witness :
    ∃ sess we,
      mget c5_state.sessions 3 = some sess ∧
      mget c5_state.epoch_users (c5_state.current_epoch, session_winner true sess) =
        some we ∧
      mget c5_state_after.epoch_users
        (c5_state.current_epoch, session_winner true sess) =
        some { epoch_faction := we.epoch_faction,
               available_fp := we.available_fp,
               locked_fp := we.locked_fp,
               total_fp_contributed :=
                 we.total_fp_contributed + session_winner_wager true sess } ∧
      ∀ k, k ≠ (c5_state.current_epoch, session_winner true sess) →
        mget c5_state_after.epoch_users k = mget c5_state.epoch_users k :=
  @end_game_epoch_user_frame c5_state 3 true c5_state_after (by rfl)

/-! ### C8 -/

/-- C8: checked additive accounting — when the checked addition onto the
winning faction's standing would overflow the i128 range, `end_game`
returns OverflowError (even though the contribution-side addition was
fine), and the aborted invocation leaves the winner's contribution, the
session's `player1_won` and all other state exactly as before the call. -/
theorem standings_overflow_aborts_end_game {s : State} {sid : Nat} {b : Bool}
    {sess : GameSession} {we : EpochUser} {f : Nat} {ei : EpochInfo}
    (hsess : mget s.sessions sid = some sess)
    (hpend : sess.player1_won = none)
    (hep : sess.epoch_id = s.current_epoch)
    (hwe : mget s.epoch_users (s.current_epoch, session_winner b sess) =
      some we)
    (hadd : I128_MIN ≤ we.total_fp_contributed + session_winner_wager b sess ∧
      we.total_fp_contributed + session_winner_wager b sess ≤ I128_MAX)
    (hf : we.epoch_faction = some f)
    (hei : mget s.epochs s.current_epoch = some ei)
    (hovf : ¬ (I128_MIN ≤ (mget ei.faction_standings f).getD 0 +
        session_winner_wager b sess ∧
      (mget ei.faction_standings f).getD 0 +
        session_winner_wager b sess ≤ I128_MAX)) :
    end_game s sid b = .error .OverflowError ∧ exec_end_game s sid b = s := by
  have herr : end_game s sid b = .error .OverflowError := by
    simp only [session_winner] at hwe
    simp only [session_winner_wager] at hadd hovf
    simp [end_game, update_faction_standings, checked_add, hsess, hpend, hep,
      hwe, hf, hei, hadd, hovf, mget_mset_self]
  exact ⟨herr, by simp [exec_end_game, herr]⟩

/-- The c5 session against an epoch whose faction-2 standing already sits at
the i128 maximum, so settling must overflow the standings addition. -/
def c8_state : State :=
  { c5_state with
      epochs := [(1,
        { start_time := 0, end_time := 0,
          faction_standings := [(2, I128_MAX)], reward_pool := 0,
          winning_faction := none, is_finalized := false })] }

/-- Witness for C8: the concrete overflowing settlement aborts with
OverflowError and changes nothing. -/
theorem standings_overflow_witness :
    end_game c8_state 3 true = .error .OverflowError ∧
    exec_end_game c8_state 3 true = c8_state :=
  standings_overflow_aborts_end_game (by rfl) (by rfl) (by rfl) (by rfl)
    (by decide) (by rfl) (by rfl) (by decide)

/-! ### C10 -/

theorem mset_mset_self {κ α : Type} [DecidableEq κ] (l : List (κ × α))
    (k : κ) (v v' : α) : mset (mset l k v) k v' = mset l k v' := by
  induction l with
  | nil => simp [mset]
  | cons p t ih =>
    obtain ⟨k0, v0⟩ := p
    by_cases hk : k0 = k <;> simp [mset, hk, ih]

/-- C10: `start_game` never requires the two players to be distinct — with
`player1 = player2 = p` and the whitelist, session-uniqueness,
positive-wager and faction-selection preconditions satisfied (here with
p's epoch record already initialized and its faction locked), and enough
available FP for both wagers, the call succeeds: both wagers are locked
against p's single epoch record (available_fp down by w1 + w2, locked_fp
up by w1 + w2) and the created session lists the same address as both
participants. -/
theorem self_play_start_game {s : State} {g sid p : Nat} {w1 w2 : Int}
    {pd : Player} {eu : EpochUser} {f : Nat}
    (hwl : is_game_whitelisted s g = true)
    (hns : mget s.sessions sid = none)
    (hw1 : 0 < w1) (hw2 : 0 < w2)
    (hp : mget s.users p = some pd)
    (heu : mget s.epoch_users (s.current_epoch, p) = some eu)
    (hf : eu.epoch_faction = some f)
    (hav : w1 + w2 ≤ eu.available_fp)
    (hl0 : 0 ≤ eu.locked_fp)
    (hlmax : eu.locked_fp + w1 + w2 ≤ I128_MAX) :
    start_game s g sid p p w1 w2 = .ok
      { s with
          epoch_users := mset s.epoch_users (s.current_epoch, p)
            { eu with available_fp := eu.available_fp - w1 - w2,
                      locked_fp := eu.locked_fp + w1 + w2 },
          sessions := mset s.sessions sid
            { game_id := g, epoch_id := s.current_epoch, player1 := p,
              player2 := p, player1_wager := w1, player2_wager := w2,
              player1_won := none } } := by
  have e1 : (2 : Int) ^ 127 = 170141183460469231731687303715884105728 := by
    norm_num
  have hMIN : I128_MIN = -170141183460469231731687303715884105728 := by
    rw [I128_MIN, e1]
  have hMAX : I128_MAX = 170141183460469231731687303715884105727 := by
    rw [I128_MAX, e1]
    norm_num
  have hlmax' :
      eu.locked_fp + w1 + w2 ≤ 170141183460469231731687303715884105727 := by
    rw [hMAX] at hlmax
    exact hlmax
  have hadd1 : checked_add eu.locked_fp w1 = some (eu.locked_fp + w1) := by
    simp only [checked_add, hMIN, hMAX]
    rw [if_pos ⟨by omega, by omega⟩]
  have hadd2 : checked_add (eu.locked_fp + w1) w2 =
      some (eu.locked_fp + w1 + w2) := by
    simp only [checked_add, hMIN, hMAX]
    rw [if_pos ⟨by omega, by omega⟩]
  have hcw : ¬ (w1 ≤ 0 ∨ w2 ≤ 0) := by omega
  have hav1 : ¬ (eu.available_fp < w1) := by omega
  have hav2 : ¬ (eu.available_fp - w1 < w2) := by omega
  simp only [start_game, hwl, hns, hcw, hp, heu, hf, hav1, hav2, hadd1, hadd2,
    initialize_player_epoch, lock_epoch_faction, lock_fp, mget_mset_self,
    mset_mset_self, Option.isSome_none, Option.isSome_some, Option.isNone_none,
    Option.isNone_some, Bool.not_true, Bool.false_eq_true, if_false, if_true,
    ite_false, ite_true, not_true, not_false_iff]

/-- A whitelisted game, an empty session slot and one player whose epoch
record is initialized with faction locked and 1000 available FP. -/
def c10_state : State :=
  { current_epoch := 1,
    users := [(10,
      { selected_faction := 0, time_multiplier_start := 42,
        last_epoch_balance := 1000 })],
    epoch_users := [((1, 10),
      { epoch_faction := some 0, available_fp := 1000, locked_fp := 0,
        total_fp_contributed := 0 })],
    epochs := [], sessions := [], games := [(99, true)], claimed := [],
    vault_balances := [], transfers := [], ledger_timestamp := 0 }

/-- Witness for C10: player 10 plays against themself with wagers 200 and
50; both wagers end up locked against their single epoch record. -/
theorem self_play_start_game_witness :
    start_game c10_state 99 6 10 10 200 50 = .ok
      { c10_state with
          epoch_users := [((1, 10),
            { epoch_faction := some 0, available_fp := 750, locked_fp := 250,
              total_fp_contributed := 0 })],
          sessions := [(6,
            { game_id := 99, epoch_id := 1, player1 := 10, player2 := 10,
              player1_wager := 200, player2_wager := 50,
              player1_won := none })] } :=
  @self_play_start_game c10_state 99 6 10 200 50
    { selected_faction := 0, time_multiplier_start := 42,
      last_epoch_balance := 1000 }
    { epoch_faction := some 0, available_fp := 1000, locked_fp := 0,
      total_fp_contributed := 0 } 0
    (by rfl) (by rfl) (by decide) (by decide) (by rfl)
    (by rfl) (by rfl) (by decide) (by decide) (by decide)

/-! ### C6 -/

def winner_wager_of (g : GameSession) : Int :=
  match g.player1_won with
  | some true => g.player1_wager
  | some false => g.player2_wager
  | none => 0

def finished_wager_sum (l : List (Nat × GameSession)) (e : Nat) : Int :=
  msum (fun q => if q.2.epoch_id = e then winner_wager_of q.2 else 0) l

def standings_total (m : List (Nat × Int)) : Int :=
  msum (fun q => q.2) m

inductive Reach : State → Prop where
  | base (s : State) (hsess : s.sessions = [])
      (hst : ∀ e ei, mget s.epochs e = some ei →
        standings_total ei.faction_standings = 0) : Reach s
  | step_start (s s' : State) (g sid p1 p2 : Nat) (w1 w2 : Int)
      (hs : Reach s) (h : start_game s g sid p1 p2 w1 w2 = .ok s') : Reach s'
  | step_end (s s' : State) (sid : Nat) (b : Bool)
      (hs : Reach s) (h : end_game s sid b = .ok s') : Reach s'

theorem check_cross_frame (s : State) (p : Nat) (bal : Int) (e : Nat) :
    ((check_cross_epoch_withdrawal_reset s p bal e).1).epochs = s.epochs ∧
    ((check_cross_epoch_withdrawal_reset s p bal e).1).sessions = s.sessions ∧
    ((check_cross_epoch_withdrawal_reset s p bal e).1).current_epoch =
      s.current_epoch := by
  unfold check_cross_epoch_withdrawal_reset
  split
  · exact ⟨rfl, rfl, rfl⟩
  · split <;> exact ⟨rfl, rfl, rfl⟩

theorem initialize_epoch_fp_frame {s s' : State} {p e : Nat}
    (h : initialize_epoch_fp s p e = .ok s') :
    s'.epochs = s.epochs ∧ s'.sessions = s.sessions ∧
    s'.current_epoch = s.current_epoch := by
  unfold initialize_epoch_fp at h
  split at h <;> (simp only [Except.ok.injEq] at h; subst h; exact ⟨rfl, rfl, rfl⟩)

theorem initialize_player_epoch_frame {s s' : State} {p e : Nat}
    (h : initialize_player_epoch s p e = .ok s') :
    s'.epochs = s.epochs ∧ s'.sessions = s.sessions ∧
    s'.current_epoch = s.current_epoch := by
  simp only [initialize_player_epoch] at h
  split at h
  · simp only [Except.ok.injEq] at h
    subst h
    exact ⟨rfl, rfl, rfl⟩
  · split at h
    · simp at h
    rename_i s3 h3
    split at h
    · simp at h
    rename_i pd2 hpd2
    simp only [Except.ok.injEq] at h
    subst h
    obtain ⟨he3, hs3, hc3⟩ := initialize_epoch_fp_frame h3
    refine ⟨?_, ?_, ?_⟩
    · show s3.epochs = s.epochs
      rw [he3, (check_cross_frame _ _ _ _).1]
      split <;> rfl
    · show s3.sessions = s.sessions
      rw [hs3, (check_cross_frame _ _ _ _).2.1]
      split <;> rfl
    · show s3.current_epoch = s.current_epoch
      rw [hc3, (check_cross_frame _ _ _ _).2.2]
      split <;> rfl

theorem lock_epoch_faction_frame {s s' : State} {p e : Nat}
    (h : lock_epoch_faction s p e = .ok s') :
    s'.epochs = s.epochs ∧ s'.sessions = s.sessions ∧
    s'.current_epoch = s.current_epoch := by
  unfold lock_epoch_faction at h
  repeat' split at h
  all_goals first
    | (simp only [Except.ok.injEq] at h; subst h; exact ⟨rfl, rfl, rfl⟩)
    | simp at h

theorem lock_fp_frame {s s' : State} {p : Nat} {a : Int} {e : Nat}
    (h : lock_fp s p a e = .ok s') :
    s'.epochs = s.epochs ∧ s'.sessions = s.sessions ∧
    s'.current_epoch = s.current_epoch := by
  unfold lock_fp at h
  repeat' split at h
  all_goals first
    | (simp only [Except.ok.injEq] at h; subst h; exact ⟨rfl, rfl, rfl⟩)
    | simp at h

theorem start_game_ok_inv {s s' : State} {g sid p1 p2 : Nat} {w1 w2 : Int}
    (h : start_game s g sid p1 p2 w1 w2 = .ok s') :
    mget s.sessions sid = none ∧ s'.epochs = s.epochs ∧
    s'.sessions = mset s.sessions sid
      { game_id := g, epoch_id := s.current_epoch, player1 := p1,
        player2 := p2, player1_wager := w1, player2_wager := w2,
        player1_won := none } := by
  simp only [start_game] at h
  split at h
  · simp at h
  rename_i hwl
  split at h
  · simp at h
  rename_i hns
  split at h
  · simp at h
  rename_i hw
  split at h
  · simp at h
  rename_i hp1
  split at h
  · simp at h
  rename_i hp2
  split at h
  · simp at h
  rename_i sa ha
  split at h
  · simp at h
  rename_i sb hb
  split at h
  · simp at h
  rename_i sc hc
  split at h
  · simp at h
  rename_i sd hd
  split at h
  · simp at h
  rename_i se he
  split at h
  · simp at h
  rename_i sf hf
  split at h
  · simp at h
  rename_i hq1
  split at h
  · simp at h
  rename_i hq2
  simp only [Except.ok.injEq] at h
  obtain ⟨hea, hsa, hca⟩ := initialize_player_epoch_frame ha
  obtain ⟨heb, hsb, hcb⟩ := initialize_player_epoch_frame hb
  obtain ⟨hec, hsc, hcc⟩ := lock_epoch_faction_frame hc
  obtain ⟨hed, hsd, hcd⟩ := lock_epoch_faction_frame hd
  obtain ⟨hee, hse, hce⟩ := lock_fp_frame he
  obtain ⟨hef, hsf, hcf⟩ := lock_fp_frame hf
  have hns' : mget s.sessions sid = none := by
    cases hmm : mget s.sessions sid
    · rfl
    · rw [hmm] at hns
      simp at hns
  refine ⟨hns', ?_, ?_⟩
  · rw [← h]
    show sf.epochs = s.epochs
    rw [hef, hee, hed, hec, heb, hea]
  · rw [← h]
    show mset sf.sessions sid _ = mset s.sessions sid _
    rw [hsf, hse, hsd, hsc, hsb, hsa]

theorem conserv_preserved_start {s s' : State} {g sid p1 p2 : Nat}
    {w1 w2 : Int}
    (hcon : ∀ e ei, mget s.epochs e = some ei →
      finished_wager_sum s.sessions e = standings_total ei.faction_standings)
    (h : start_game s g sid p1 p2 w1 w2 = .ok s') :
    ∀ e ei, mget s'.epochs e = some ei →
      finished_wager_sum s'.sessions e =
        standings_total ei.faction_standings := by
  obtain ⟨hns, hep, hsess⟩ := start_game_ok_inv h
  intro e ei hei
  rw [hep] at hei
  rw [hsess]
  unfold finished_wager_sum
  rw [msum_mset_none _ _ hns]
  simp only [winner_wager_of, ite_self, add_zero]
  exact hcon e ei hei

theorem conserv_preserved_end {s s' : State} {sid : Nat} {b : Bool}
    (hcon : ∀ e ei, mget s.epochs e = some ei →
      finished_wager_sum s.sessions e = standings_total ei.faction_standings)
    (h : end_game s sid b = .ok s') :
    ∀ e ei, mget s'.epochs e = some ei →
      finished_wager_sum s'.sessions e =
        standings_total ei.faction_standings := by
  obtain ⟨sess, we, f, ei, hsess, hpend, hepid, hwe, hf, hei, hs'⟩ :=
    end_game_ok_inv h
  subst hs'
  intro e ei' hei'
  simp only at hei'
  by_cases hce : e = s.current_epoch
  · subst hce
    rw [mget_mset_self] at hei'
    have hei'' : ei' = bump_standings ei f (session_winner_wager b sess) :=
      (Option.some.inj hei').symm
    subst hei''
    unfold finished_wager_sum
    rw [msum_mset_some _ _ hsess]
    unfold bump_standings standings_total
    have hold : (if sess.epoch_id = s.current_epoch then
        winner_wager_of sess else 0) = 0 := by
      simp [winner_wager_of, hpend]
    have hnew : (if (mark_ended sess b).epoch_id = s.current_epoch then
        winner_wager_of (mark_ended sess b) else 0) =
        session_winner_wager b sess := by
      cases b <;>
        simp [mark_ended, winner_wager_of, session_winner_wager, hepid]
    rw [hold, hnew]
    have hbase := hcon s.current_epoch ei hei
    unfold finished_wager_sum at hbase
    rw [hbase]
    cases hst : mget ei.faction_standings f
    · rw [msum_mset_none _ _ hst]
      simp only [standings_total, hst, Option.getD_none]
      ring
    · rename_i cur
      rw [msum_mset_some _ _ hst]
      simp only [standings_total, hst, Option.getD_some]
      ring
  · rw [mget_mset_ne _ _ hce] at hei'
    unfold finished_wager_sum
    rw [msum_mset_some _ _ hsess]
    have h1 : (if sess.epoch_id = e then winner_wager_of sess else 0) = 0 := by
      rw [hepid, if_neg (fun hh => hce hh.symm)]
    have h2 : (if (mark_ended sess b).epoch_id = e then
        winner_wager_of (mark_ended sess b) else 0) = 0 := by
      simp only [mark_ended]
      rw [hepid, if_neg (fun hh => hce hh.symm)]
    rw [h1, h2]
    simp only [sub_zero, add_zero]
    exact hcon e ei' hei'

/-- C6: conservation — in any state reached from a session-free,
zero-standings base by any sequence of successful `start_game`/`end_game`
calls, and for any epoch, the sum of the winner's wager over that epoch's
finished sessions equals the epoch's faction standings summed across all
factions; loser wagers never enter the total (a pending or settled
session contributes only its winner's wager, and `end_game` adds exactly
that amount to exactly one standing). -/
theorem conservation_of_winner_wagers {s : State} (h : Reach s) :
    ∀ e ei, mget s.epochs e = some ei →
      finished_wager_sum s.sessions e =
        standings_total ei.faction_standings := by
  induction h with
  | base s hsess hst =>
    intro e ei hei
    rw [hsess]
    unfold finished_wager_sum
    rw [msum_nil]
    exact (hst e ei hei).symm
  | step_start s s' g sid p1 p2 w1 w2 hs h ih =>
    exact conserv_preserved_start ih h
  | step_end s s' sid b hs h ih =>
    exact conserv_preserved_end ih h

/-- Two players with faction selections, a whitelisted game and an open
epoch with empty standings. -/
def c6_base : State :=
  { current_epoch := 1,
    users := [(10, { selected_faction := 0, time_multiplier_start := 0,
                     last_epoch_balance := 0 }),
              (11, { selected_faction := 2, time_multiplier_start := 0,
                     last_epoch_balance := 0 })],
    epoch_users := [],
    epochs := [(1, { start_time := 0, end_time := 100,
                     faction_standings := [], reward_pool := 0,
                     winning_faction := none, is_finalized := false })],
    sessions := [], games := [(99, true)], claimed := [],
    vault_balances := [(10, 1000), (11, 500)], transfers := [],
    ledger_timestamp := 42 }

/-- c6_base after starting session 5 (wagers 200 and 50). -/
def c6_started : State :=
  { c6_base with
      users := [(10, { selected_faction := 0, time_multiplier_start := 42,
                       last_epoch_balance := 1000 }),
                (11, { selected_faction := 2, time_multiplier_start := 42,
                       last_epoch_balance := 500 })],
      epoch_users := [((1, 10),
        { epoch_faction := some 0, available_fp := 800, locked_fp := 200,
          total_fp_contributed := 0 }),
        ((1, 11),
        { epoch_faction := some 2, available_fp := 450, locked_fp := 50,
          total_fp_contributed := 0 })],
      sessions := [(5, { game_id := 99, epoch_id := 1, player1 := 10,
                         player2 := 11, player1_wager := 200,
                         player2_wager := 50, player1_won := none })] }

/-- The epoch record after settling session 5 for player1. -/
def c6_final_epoch : EpochInfo :=
  { start_time := 0, end_time := 100, faction_standings := [(0, 200)],
    reward_pool := 0, winning_faction := none, is_finalized := false }

/-- c6_started after settling session 5 in player1's favor. -/
def c6_final : State :=
  { c6_started with
      epoch_users := [((1, 10),
        { epoch_faction := some 0, available_fp := 800, locked_fp := 200,
          total_fp_contributed := 200 }),
        ((1, 11),
        { epoch_faction := some 2, available_fp := 450, locked_fp := 50,
          total_fp_contributed := 0 })],
      epochs := [(1, c6_final_epoch)],
      sessions := [(5, { game_id := 99, epoch_id := 1, player1 := 10,
                         player2 := 11, player1_wager := 200,
                         player2_wager := 50, player1_won := some true })] }

/-- Witness for C6: after one started and settled session, the finished
winner-wager sum and the standings total both evaluate to 200. -/
theorem conservation_witness :
    finished_wager_sum c6_final.sessions 1 =
      standings_total c6_final_epoch.faction_standings := by
  refine conservation_of_winner_wagers ?_ 1 c6_final_epoch (by rfl)
  refine Reach.step_end c6_started c6_final 5 true ?_ (by rfl)
  refine Reach.step_start c6_base c6_started 99 5 10 11 200 50 ?_ (by rfl)
  refine Reach.base c6_base rfl ?_
  intro e ei hei
  by_cases h1 : (1 : Nat) = e
  · subst h1
    have h2 := Option.some.inj hei
    rw [← h2]
    rfl
  · simp only [c6_base, mget, h1, if_false] at hei
    cases hei

/-! ### C2 -/

/-- The exact two-step floor formula computed by calculate_reward_share on
its success path. -/
def reward_formula (pool T x : Int) : Int :=
  Int.fdiv (pool * Int.fdiv (x * SCALAR_7) T) SCALAR_7

theorem SCALAR_7_pos : (0 : Int) < SCALAR_7 := by norm_num [SCALAR_7]

theorem reward_formula_eq_ediv {T : Int} (hT : 0 < T) (pool x : Int) :
    reward_formula pool T x = pool * (x * SCALAR_7 / T) / SCALAR_7 := by
  rw [reward_formula, Int.fdiv_eq_ediv _ (le_of_lt hT),
    Int.fdiv_eq_ediv _ (le_of_lt SCALAR_7_pos)]

theorem ediv_superadd {c : Int} (hc : 0 < c) (a b : Int) :
    a / c + b / c ≤ (a + b) / c := by
  rw [Int.le_ediv_iff_mul_le hc, add_mul]
  have ha := Int.ediv_mul_le a (ne_of_gt hc)
  have hb := Int.ediv_mul_le b (ne_of_gt hc)
  omega

theorem reward_formula_superadd {pool T : Int} (hp : 0 ≤ pool) (hT : 0 < T)
    (a b : Int) :
    reward_formula pool T a + reward_formula pool T b ≤
      reward_formula pool T (a + b) := by
  rw [reward_formula_eq_ediv hT, reward_formula_eq_ediv hT,
    reward_formula_eq_ediv hT]
  have h1 : a * SCALAR_7 / T + b * SCALAR_7 / T ≤ (a + b) * SCALAR_7 / T := by
    have h2 := ediv_superadd hT (a * SCALAR_7) (b * SCALAR_7)
    rw [← add_mul] at h2
    exact h2
  calc pool * (a * SCALAR_7 / T) / SCALAR_7 +
        pool * (b * SCALAR_7 / T) / SCALAR_7
      ≤ (pool * (a * SCALAR_7 / T) + pool * (b * SCALAR_7 / T)) / SCALAR_7 :=
        ediv_superadd SCALAR_7_pos _ _
    _ = pool * (a * SCALAR_7 / T + b * SCALAR_7 / T) / SCALAR_7 := by
        rw [mul_add]
    _ ≤ pool * ((a + b) * SCALAR_7 / T) / SCALAR_7 :=
        Int.ediv_le_ediv SCALAR_7_pos (mul_le_mul_of_nonneg_left h1 hp)

theorem reward_formula_mono {pool T : Int} (hp : 0 ≤ pool) (hT : 0 < T)
    {a b : Int} (h : a ≤ b) :
    reward_formula pool T a ≤ reward_formula pool T b := by
  rw [reward_formula_eq_ediv hT, reward_formula_eq_ediv hT]
  refine Int.ediv_le_ediv SCALAR_7_pos (mul_le_mul_of_nonneg_left ?_ hp)
  exact Int.ediv_le_ediv hT (mul_le_mul_of_nonneg_right h (le_of_lt SCALAR_7_pos))

theorem reward_formula_cap {pool T B : Int} (hp : 0 ≤ pool) (hT : 0 < T)
    (hB : B ≤ T) : reward_formula pool T B ≤ pool := by
  rw [reward_formula_eq_ediv hT]
  have h1 : B * SCALAR_7 / T ≤ SCALAR_7 := by
    have h2 : B * SCALAR_7 / T ≤ T * SCALAR_7 / T :=
      Int.ediv_le_ediv hT
        (mul_le_mul_of_nonneg_right hB (le_of_lt SCALAR_7_pos))
    rwa [Int.mul_ediv_cancel_left _ (ne_of_gt hT)] at h2
  calc pool * (B * SCALAR_7 / T) / SCALAR_7
      ≤ pool * SCALAR_7 / SCALAR_7 :=
        Int.ediv_le_ediv SCALAR_7_pos (mul_le_mul_of_nonneg_left h1 hp)
    _ = pool := Int.mul_ediv_cancel _ (ne_of_gt SCALAR_7_pos)

theorem reward_formula_nonneg {pool T x : Int} (hp : 0 ≤ pool) (hT : 0 < T)
    (hx : 0 ≤ x) : 0 ≤ reward_formula pool T x := by
  rw [reward_formula_eq_ediv hT]
  refine Int.ediv_nonneg (mul_nonneg hp ?_) (le_of_lt SCALAR_7_pos)
  exact Int.ediv_nonneg (mul_nonneg hx (le_of_lt SCALAR_7_pos)) (le_of_lt hT)

/-- A batch of claim_epoch_reward invocations against one epoch: each user
in the list claims in turn (failed claims change nothing), returning the
final state and the total amount paid out. -/
def claim_many (s : State) (us : List Nat) (e : Nat) : State × Int :=
  match us with
  | [] => (s, 0)
  | u :: rest =>
    match claim_epoch_reward s u e with
    | .ok p =>
      let q := claim_many p.1 rest e
      (q.1, p.2 + q.2)
    | .error _ => claim_many s rest e

/-- The total contribution still claimable against epoch `e` for faction
`f`: the sum of `total_fp_contributed` over the epoch's user records whose
faction is `f` and whose claim is not yet recorded. -/
def unclaimed_contribution_sum (s : State) (e f : Nat) : Int :=
  msum (fun q =>
    if q.1.1 = e ∧ q.2.epoch_faction = some f ∧ has_claimed s q.1.2 e = false
    then q.2.total_fp_contributed else 0) s.epoch_users

theorem unclaimed_contribution_sum_nonneg {s : State} {e f : Nat}
    (hents : ∀ q ∈ s.epoch_users, q.1.1 = e →
      0 ≤ q.2.total_fp_contributed) :
    0 ≤ unclaimed_contribution_sum s e f := by
  refine msum_nonneg fun q hq => ?_
  by_cases hc : q.1.1 = e ∧ q.2.epoch_faction = some f ∧
      has_claimed s q.1.2 e = false
  · rw [if_pos hc]
    exact hents q hq hc.1
  · rw [if_neg hc]

theorem unclaimed_sum_decrease {s s' : State} {e f u : Nat} {eu : EpochUser}
    (hents : ∀ q ∈ s.epoch_users, q.1.1 = e →
      0 ≤ q.2.total_fp_contributed)
    (heu : mget s.epoch_users (e, u) = some eu)
    (hufc : eu.epoch_faction = some f)
    (hucl : has_claimed s u e = false)
    (hsame : s'.epoch_users = s.epoch_users)
    (hclm : s'.claimed = mset s.claimed (u, e) true) :
    unclaimed_contribution_sum s' e f ≤
      unclaimed_contribution_sum s e f - eu.total_fp_contributed := by
  have hcl' : ∀ v, has_claimed s' v e = if v = u then true
      else has_claimed s v e := by
    intro v
    by_cases hv : v = u
    · subst hv
      unfold has_claimed
      rw [hclm, mget_mset_self, if_pos rfl]
    · unfold has_claimed
      rw [hclm, mget_mset_ne _ _ (by simp [hv]), if_neg hv]
  unfold unclaimed_contribution_sum
  rw [hsame]
  have hpt : ∀ q ∈ s.epoch_users,
      (if q.1.1 = e ∧ q.2.epoch_faction = some f ∧
          has_claimed s' q.1.2 e = false
        then q.2.total_fp_contributed else 0) ≤
      (if q.1.1 = e ∧ q.2.epoch_faction = some f ∧
          has_claimed s q.1.2 e = false
        then q.2.total_fp_contributed else 0) := by
    intro q hq
    by_cases hqu : q.1.2 = u
    · rw [hcl' q.1.2, if_pos hqu]
      simp only [Bool.true_eq_false, and_false, if_false]
      by_cases hc : q.1.1 = e ∧ q.2.epoch_faction = some f ∧
          has_claimed s q.1.2 e = false
      · rw [if_pos hc]
        exact hents q hq hc.1
      · rw [if_neg hc]
    · rw [hcl' q.1.2, if_neg hqu]
  have hgap := msum_gap (mget_mem heu) hpt
  have h1 : (if ((e, u) : Nat × Nat).1 = e ∧ eu.epoch_faction = some f ∧
      has_claimed s ((e, u) : Nat × Nat).2 e = false
    then eu.total_fp_contributed else 0) = eu.total_fp_contributed := by
    rw [if_pos ⟨rfl, hufc, hucl⟩]
  have h2 : (if ((e, u) : Nat × Nat).1 = e ∧ eu.epoch_faction = some f ∧
      has_claimed s' ((e, u) : Nat × Nat).2 e = false
    then eu.total_fp_contributed else 0) = 0 := by
    rw [hcl' u, if_pos rfl]
    simp
  rw [h1, h2] at hgap
  omega

theorem claim_ok_state_effects {s : State} {u e : Nat} {s' : State} {r : Int}
    (h : claim_epoch_reward s u e = .ok (s', r)) :
    s'.epochs = s.epochs ∧ s'.epoch_users = s.epoch_users ∧
    s'.claimed = mset s.claimed (u, e) true := by
  obtain ⟨-, ei, eu, wf, T, -, -, -, -, -, -, -, -, -, -, hs'⟩ :=
    claim_epoch_reward_ok_inv h
  rw [hs']
  exact ⟨rfl, rfl, rfl⟩

theorem claim_many_bound {e wf : Nat} {ei : EpochInfo} {T : Int}
    (hwfei : ei.winning_faction = some wf)
    (hTs : mget ei.faction_standings wf = some T)
    (hTpos : 0 < T) (hp : 0 ≤ ei.reward_pool) :
    ∀ (us : List Nat) (s : State) (B : Int),
      mget s.epochs e = some ei →
      (∀ q ∈ s.epoch_users, q.1.1 = e → 0 ≤ q.2.total_fp_contributed) →
      unclaimed_contribution_sum s e wf ≤ B →
      (claim_many s us e).2 ≤ reward_formula ei.reward_pool T B := by
  intro us
  induction us with
  | nil =>
    intro s B hei hents hB
    simp only [claim_many]
    exact reward_formula_nonneg hp hTpos
      (le_trans (unclaimed_contribution_sum_nonneg hents) hB)
  | cons u rest ih =>
    intro s B hei hents hB
    simp only [claim_many]
    cases hc : claim_epoch_reward s u e with
    | error err => exact ih s B hei hents hB
    | ok pr =>
      obtain ⟨s', r⟩ := pr
      obtain ⟨hucl, ei2, eu, wf2, T2, hei2, hfin2, hwf2, heu, huf, hc0, hT2,
        hT20, hcalc, hr0, hs'⟩ := claim_epoch_reward_ok_inv hc
      have heieq : ei2 = ei := by
        rw [hei] at hei2
        exact (Option.some.inj hei2).symm
      rw [heieq] at hwf2 hT2 hcalc
      have hwfeq : wf2 = wf := by
        rw [hwfei] at hwf2
        exact (Option.some.inj hwf2).symm
      rw [hwfeq] at hT2 huf
      have hTeq : T2 = T := by
        rw [hTs] at hT2
        exact (Option.some.inj hT2).symm
      rw [hTeq] at hcalc
      have hr : r = reward_formula ei.reward_pool T eu.total_fp_contributed :=
        (calculate_reward_share_ok_inv hcalc).2
      obtain ⟨hse, hsu, hscl⟩ := claim_ok_state_effects hc
      have hcnn : 0 ≤ eu.total_fp_contributed :=
        hents _ (mget_mem heu) rfl
      have hdec := unclaimed_sum_decrease hents heu huf hucl hsu hscl
      have hnext := ih s' (B - eu.total_fp_contributed)
        (by rw [hse]; exact hei)
        (by rw [hsu]; exact hents)
        (by omega)
      have hsup := reward_formula_superadd hp hTpos eu.total_fp_contributed
        (B - eu.total_fp_contributed)
      have hBeq : eu.total_fp_contributed + (B - eu.total_fp_contributed)
          = B := by ring
      rw [hBeq] at hsup
      calc r + (claim_many s' rest e).2
          ≤ reward_formula ei.reward_pool T eu.total_fp_contributed +
            reward_formula ei.reward_pool T (B - eu.total_fp_contributed) :=
            add_le_add (le_of_eq hr) hnext
        _ ≤ reward_formula ei.reward_pool T B := hsup

theorem claim_many_zero_standing {e wf : Nat} {ei : EpochInfo}
    (hwfei : ei.winning_faction = some wf)
    (hTs : mget ei.faction_standings wf = some 0) :
    ∀ (us : List Nat) (s : State), mget s.epochs e = some ei →
      (claim_many s us e).2 = 0 := by
  intro us
  induction us with
  | nil =>
    intro s hei
    simp [claim_many]
  | cons u rest ih =>
    intro s hei
    simp only [claim_many]
    cases hc : claim_epoch_reward s u e with
    | error err => exact ih s hei
    | ok pr =>
      exfalso
      obtain ⟨s', r⟩ := pr
      obtain ⟨hucl, ei2, eu, wf2, T2, hei2, hfin2, hwf2, heu, huf, hc0, hT2,
        hT20, hcalc, hr0, hs'⟩ := claim_epoch_reward_ok_inv hc
      have heieq : ei2 = ei := by
        rw [hei] at hei2
        exact (Option.some.inj hei2).symm
      rw [heieq] at hwf2 hT2
      have hwfeq : wf2 = wf := by
        rw [hwfei] at hwf2
        exact (Option.some.inj hwf2).symm
      rw [hwfeq] at hT2
      rw [hTs] at hT2
      exact hT20 (Option.some.inj hT2).symm

/-- C2: no over-distribution — both reward steps floor toward zero, so for
any finalized epoch and any batch of claims against it (arbitrary users,
repetitions included), the total paid out is at most `reward_pool`,
provided the stored contributions are nonnegative and the unclaimed
contributions total at most the winning faction's standing (which
conservation, C6, guarantees for states produced by game play). -/
theorem claims_never_exceed_reward_pool {s : State} {e wf : Nat}
    {ei : EpochInfo} {T : Int} (us : List Nat)
    (hei : mget s.epochs e = some ei)
    (hwf : ei.winning_faction = some wf)
    (hTs : mget ei.faction_standings wf = some T)
    (hp : 0 ≤ ei.reward_pool)
    (hents : ∀ q ∈ s.epoch_users, q.1.1 = e → 0 ≤ q.2.total_fp_contributed)
    (hcap : unclaimed_contribution_sum s e wf ≤ T) :
    (claim_many s us e).2 ≤ ei.reward_pool := by
  have h0 : 0 ≤ T := le_trans (unclaimed_contribution_sum_nonneg hents) hcap
  rcases lt_or_eq_of_le h0 with hTpos | hT0
  · exact le_trans
      (claim_many_bound hwf hTs hTpos hp us s T hei hents hcap)
      (reward_formula_cap hp hTpos (le_refl T))
  · rw [← hT0] at hTs
    rw [claim_many_zero_standing hwf hTs us s hei]
    exact hp

/-- A finalized epoch paying from a pool of 10 with winning-faction
standing 3. -/
def c2_epoch : EpochInfo :=
  { start_time := 0, end_time := 0, faction_standings := [(0, 3)],
    reward_pool := 10, winning_faction := some 0, is_finalized := true }

/-- Two winning-faction claimants with contributions 1 and 2. -/
def c2_state : State :=
  { current_epoch := 2, users := [],
    epoch_users := [((1, 8),
      { epoch_faction := some 0, available_fp := 0, locked_fp := 0,
        total_fp_contributed := 1 }),
      ((1, 9),
      { epoch_faction := some 0, available_fp := 0, locked_fp := 0,
        total_fp_contributed := 2 })],
    epochs := [(1, c2_epoch)], sessions := [], games := [], claimed := [],
    vault_balances := [], transfers := [], ledger_timestamp := 0 }

/-- Witness for C2: the two claims pay 3 and 6 (each floored), and
3 + 6 = 9 is at most the pool of 10. -/
theorem claims_never_exceed_reward_pool_witness :
    (claim_many c2_state [8, 9] 1).2 ≤ c2_epoch.reward_pool :=
  @claims_never_exceed_reward_pool c2_state 1 0 c2_epoch 3 [8, 9]
    (by rfl) (by rfl) (by rfl) (by decide) (by decide) (by decide)


end Blendizzard
